import Mathlib

/-!
# Verification of the spkkn-words ownership/pricing and moderation core

Shallow embedding of the backend of the `spkkn-words` marketplace
(`src/backend/app/`): the ownership engine (`services.py`), the
moderation engine and admin operations (`admin_service.py`), the
availability predicate (`utils.py`) and the read-path availability
filters (`routes/words.py`, `routes/leaderboard.py`,
`admin_service.get_dashboard_summary`).

Conventions of the embedding:
* Money (`Numeric(10,2)`) is represented exactly in integer cents:
  $1.00 = 100.  The claim increment `Decimal("1.00")` is 100 cents, the
  mint price $51.00 is 5100, the creation fee $50.00 is 5000.
* Time is an integer count of seconds.  The lockout rule "one hour per
  dollar paid" becomes `price_in_cents * 36` seconds, which is exact for
  two-decimal amounts (1 cent → 36 s, 100 cents → 3600 s = 1 h).  The
  fixed 50-hour mint lockout is 180000 seconds.
* `datetime.now(timezone.utc)` is an explicit `now : Int` parameter.
* SQLAlchemy sessions are modelled by explicit state passing: each
  mutating operation takes a `DB` and returns the committed `DB`
  together with its result.  `db.rollback()` on an error path returns
  the *original* `DB` unchanged.  A possible storage-level failure at
  commit time is modelled by a `commitOk : Bool` input: when it is
  false the `except SQLAlchemyError` path runs (rollback, wrapped
  error).
* The detoxify oracle is opaque; its observable outcome (a
  high-confidence toxicity signal that blocks, with classifier failure
  already folded in as "pass" by the fail-open `except`) is a
  parameter `toxicBlocks : String → Bool`.
* Python `str.lower` / `str.strip` are embedded as `pyLower` /
  `pyStrip` (per-character lowering, whitespace removal at both ends),
  which agree with CPython on the ASCII inputs the registry accepts.
-/

/-- Moderation status values actually stored by the code
(`admin_service.py` writes `"pending"`, `"approved"`, `"rejected"`,
`"protected"`); the unset state (SQL `NULL`) is `Option.none` at use
sites.  Python's `not word.moderation_status` is `= none` here. -/
inductive ModStatus where
  | pending
  | approved
  | rejected
  | protectedStatus
  deriving DecidableEq, Repr

/-- `words` row (`models.py: class Word`, plus the `moderation_status` /
`moderated_at` columns added by `migrate_add_moderation.py`). -/
structure Word where
  id : Nat
  text : String
  price : Int
  owner_name : Option String
  owner_message : Option String
  lockout_ends_at : Option Int
  moderation_status : Option ModStatus
  moderated_at : Option Int
  deriving DecidableEq, Repr

/-- `transactions` row (`models.py: class Transaction`);
`is_admin_action` defaults to `False` when a constructor call omits
it. -/
structure Txn where
  word_id : Nat
  buyer_name : String
  price_paid : Int
  timestamp : Int
  is_admin_action : Bool
  deriving DecidableEq, Repr

/-- `message_reports` row (`migrate_add_moderation.py`,
`models.MessageReport`). -/
structure Report where
  word_id : Nat
  ip_address : Option String
  deriving DecidableEq, Repr

/-- The durable store: the tables the core mutates. -/
structure DB where
  words : List Word
  transactions : List Txn
  reports : List Report
  deriving Repr

/-- Error taxonomy surfaced by the service layer: the `HTTPException`s
raised in `services.py` (404 not found, 400 locked / conflict /
validation, 500 wrapped store error) and the `ValueError`s of
`admin_service.py` (not found, invalid action). -/
inductive SvcError where
  | notFound
  | locked
  | conflict
  | validationFailed
  | invalidAction
  | storageFailure
  deriving DecidableEq, Repr

/-- Row lookup by (already normalized) text, as in
`db.query(Word).filter(Word.text == ...).first()`. -/
def DB.findByText (db : DB) (t : String) : Option Word :=
  db.words.find? (fun x => x.text == t)

/-- Row lookup by primary key, as in
`db.query(Word).filter(Word.id == word_id).first()`. -/
def DB.findById (db : DB) (id : Nat) : Option Word :=
  db.words.find? (fun x => x.id == id)

/-- Committing an ORM mutation of the row with primary key `id`:
the stored row is replaced by the mutated object. -/
def DB.updateWord (db : DB) (id : Nat) (w : Word) : DB :=
  { db with words := db.words.map (fun x => if x.id = id then w else x) }

/-- Primary-key assignment by the store on insert (`SERIAL`): some id
no existing row carries. -/
def DB.freshId (db : DB) : Nat :=
  (db.words.map Word.id).foldr Nat.max 0 + 1

/-- `utils.is_word_available`: available iff `lockout_ends_at` is null
or `now >= lockout_ends_at`. -/
def is_word_available (lockout_ends_at : Option Int) (now : Int) : Bool :=
  match lockout_ends_at with
  | none => true
  | some t => decide (t ≤ now)

/-- The `status == "available"` filter of `routes/words.py::search_words`
(lines 51–57): `lockout_ends_at IS NULL OR lockout_ends_at <= now`. -/
def search_available_filter (lockout_ends_at : Option Int) (now : Int) : Bool :=
  match lockout_ends_at with
  | none => true
  | some t => decide (t ≤ now)

/-- The `available_only` filter of `routes/words.py::get_random_word`
(lines 124–129): `lockout_ends_at IS NULL OR lockout_ends_at <= now`. -/
def random_available_filter (lockout_ends_at : Option Int) (now : Int) : Bool :=
  match lockout_ends_at with
  | none => true
  | some t => decide (t ≤ now)

/-- The `words_owned` filter of `routes/leaderboard.py::get_platform_stats`
(lines 122–125): counted as locked iff `lockout_ends_at IS NOT NULL AND
lockout_ends_at > now`; `words_available` is the complement. -/
def stats_locked_filter (lockout_ends_at : Option Int) (now : Int) : Bool :=
  match lockout_ends_at with
  | none => false
  | some t => decide (now < t)

/-- The `available_words` filter of
`admin_service.AdminService.get_dashboard_summary` (lines 295–300):
`lockout_ends_at IS NULL OR lockout_ends_at < now` — note the strict
`<`. -/
def dashboard_available_filter (lockout_ends_at : Option Int) (now : Int) : Bool :=
  match lockout_ends_at with
  | none => true
  | some t => decide (t < now)

/-- Modelled from the spec: `filter_message_for_moderation` is imported
by `routes/words.py` (line 14) and `routes/leaderboard.py` (line 14)
from `app.services`, but no definition of it appears anywhere under the
sources; only its callers are present.  Per the spec (§4.3) it "returns
the message unchanged if `status ∈ {approved, protected}` or status is
unset and `report_count` is below threshold; returns a placeholder/null
once status is `pending` or `rejected`, or once `report_count` reaches
threshold even before formal adjudication".  The configured threshold is
an explicit parameter (the `settings.report_threshold` configuration
value). -/
def filter_message_for_moderation (message : Option String)
    (status : Option ModStatus) (report_count : Nat) (threshold : Nat) :
    Option String :=
  match status with
  | some .approved => message
  | some .protectedStatus => message
  | some .pending => none
  | some .rejected => none
  | none => if report_count < threshold then message else none

/-- Python `str.lower`, characterwise. -/
def pyLower (s : String) : String :=
  ⟨s.data.map Char.toLower⟩

/-- The ASCII whitespace characters `str.strip` removes. -/
def isPySpace (c : Char) : Bool :=
  c == ' ' || c == '\t' || c == '\n' || c == '\r' || c == '\x0b' || c == '\x0c'

/-- Python `str.strip`: drop whitespace from both ends. -/
def pyStrip (s : String) : String :=
  ⟨((s.data.dropWhile isPySpace).reverse.dropWhile isPySpace).reverse⟩

/-- Python `len` on a string: its number of characters. -/
def pyLen (s : String) : Nat :=
  s.data.length

/-- Python `str.isalpha` on the ASCII strings the service accepts:
nonempty and every character a letter. -/
def pyIsAlpha (s : String) : Bool :=
  !s.data.isEmpty && s.data.all Char.isAlpha

/-- Python `str.isascii`: every code point below 128. -/
def pyIsAscii (s : String) : Bool :=
  s.data.all (fun c => c.toNat ≤ 127)

/-- Python `x or default` for an optional string (`None` and `""` are
falsy), used for `buyer_name=owner_name or "ADMIN_RESET"`. -/
def pyOr (x : Option String) (default : String) : String :=
  match x with
  | none => default
  | some s => if s.isEmpty then default else s

/-- `WordService.steal_word` (`services.py` lines 26–122).

Locks and fetches the row whose text equals `word_text.lower()`;
404 if absent; 400-Locked if the lockout has not elapsed; otherwise
pays the current price `P`, sets `price := P + $1`, both owner fields,
`lockout_ends_at := now + P hours` (one hour per dollar of the
pre-increment price, i.e. 36 s per cent), and appends one Transaction
with `price_paid = P` (the `is_admin_action` column defaults to
false).  The Item update and the Transaction insert commit together;
`commitOk = false` models a store failure at commit, whose handler
rolls the whole transaction back and surfaces a wrapped 500. -/
def steal_word (db : DB) (word_text owner_name owner_message : String)
    (now : Int) (commitOk : Bool) : Except SvcError (Word × Txn) × DB :=
  match db.findByText (pyLower word_text) with
  | none => (.error .notFound, db)
  | some word =>
    if is_word_available word.lockout_ends_at now then
      let purchase_price := word.price
      let new_price := purchase_price + 100
      let lockout_ends_at := now + purchase_price * 36
      let word' : Word :=
        { word with
          owner_name := some owner_name,
          owner_message := some owner_message,
          price := new_price,
          lockout_ends_at := some lockout_ends_at }
      let txn : Txn :=
        { word_id := word.id, buyer_name := owner_name,
          price_paid := purchase_price, timestamp := now,
          is_admin_action := false }
      if commitOk then
        (.ok (word', txn),
          { (db.updateWord word.id word') with
              transactions := db.transactions ++ [txn] })
      else (.error .storageFailure, db)
    else (.error .locked, db)

/-- The store-level insert of a `words` row.  `models.py` line 12
declares `text` with `unique=True`: the insert itself rejects a
duplicate text, independently of any application-level existence
check, which is what resolves the check/insert race. -/
def insert_word (db : DB) (w : Word) : Option DB :=
  if db.words.any (fun x => x.text == w.text) then none
  else some { db with words := db.words ++ [w] }

/-- `WordService.add_word` (`services.py` lines 124–262).

Normalizes `word_text.lower().strip()`; 400-Conflict if a row with
that text exists; then validates length 1–100, `isalpha`, `isascii`;
then consults the toxicity oracle — `toxicBlocks` is its observable
outcome, with classifier failure already treated as "pass" by the
fail-open `except`.  On success creates the word at price $51 with a
50-hour lockout and appends one Transaction with `price_paid = $50`
(admin flag defaulting to false).  The insert itself goes through the
unique constraint (`insert_word`); `commitOk = false` models a commit
failure, rolled back in full. -/
def add_word (db : DB) (word_text owner_name owner_message : String)
    (now : Int) (toxicBlocks : String → Bool) (commitOk : Bool) :
    Except SvcError (Word × Txn) × DB :=
  let t := pyStrip (pyLower word_text)
  if db.words.any (fun x => x.text == t) then (.error .conflict, db)
  else if t.data.isEmpty || 100 < pyLen t then (.error .validationFailed, db)
  else if !pyIsAlpha t then (.error .validationFailed, db)
  else if !pyIsAscii t then (.error .validationFailed, db)
  else if toxicBlocks t then (.error .validationFailed, db)
  else
    let new_word : Word :=
      { id := db.freshId, text := t, price := 5100,
        owner_name := some owner_name, owner_message := some owner_message,
        lockout_ends_at := some (now + 180000),
        moderation_status := none, moderated_at := none }
    let txn : Txn :=
      { word_id := new_word.id, buyer_name := owner_name,
        price_paid := 5000, timestamp := now, is_admin_action := false }
    match insert_word db new_word with
    | none => (.error .storageFailure, db)
    | some db' =>
      if commitOk then
        (.ok (new_word, txn),
          { db' with transactions := db'.transactions ++ [txn] })
      else (.error .storageFailure, db)

/-- `AdminService.reset_word` (`admin_service.py` lines 216–279).

Admin override: finds the row by lowercased text (404 if absent), sets
`price := new_price`; when `owner_name` is supplied (`is not None`)
sets `owner_name`, sets `owner_message` to whatever was supplied —
possibly null — and `lockout_ends_at := now + new_price hours`;
otherwise clears both owner fields and the lockout.  Always appends a
Transaction with `price_paid = new_price` and `is_admin_action =
true`. -/
def reset_word (db : DB) (word_text : String) (new_price : Int)
    (owner_name owner_message : Option String) (now : Int) :
    Except SvcError Word × DB :=
  match db.findByText (pyLower word_text) with
  | none => (.error .notFound, db)
  | some word =>
    let word' : Word :=
      match owner_name with
      | some name =>
        { word with
          price := new_price, owner_name := some name,
          owner_message := owner_message,
          lockout_ends_at := some (now + new_price * 36) }
      | none =>
        { word with
          price := new_price, owner_name := none,
          owner_message := none, lockout_ends_at := none }
    let txn : Txn :=
      { word_id := word.id,
        buyer_name := pyOr owner_name "ADMIN_RESET",
        price_paid := new_price, timestamp := now, is_admin_action := true }
    (.ok word',
      { (db.updateWord word.id word') with
          transactions := db.transactions ++ [txn] })

/-- The report count the moderation engine recomputes:
`db.query(MessageReport).filter(MessageReport.word_id == word_id).count()`. -/
def report_count_for (db : DB) (word_id : Nat) : Nat :=
  (db.reports.filter (fun r => r.word_id == word_id)).length

/-- `AdminService.report_message` (`admin_service.py` lines 313–340).

Appends a Report row, recomputes the item's report count, and if the
count has reached the configured threshold while
`not word.moderation_status` (status unset), sets the status to
`pending`.  The threshold is the `settings.report_threshold`
configuration value, an explicit parameter here.  Returns the new
store and the count. -/
def report_message (db : DB) (word_id : Nat) (ip_address : Option String)
    (threshold : Nat) : DB × Nat :=
  let db1 : DB :=
    { db with
      reports := db.reports ++ [{ word_id := word_id, ip_address := ip_address }] }
  let cnt := report_count_for db1 word_id
  match db1.findById word_id with
  | some word =>
    if threshold ≤ cnt ∧ word.moderation_status = none then
      (db1.updateWord word_id { word with moderation_status := some .pending },
        cnt)
    else (db1, cnt)
  | none => (db1, cnt)

/-- `AdminService.moderate_message` (`admin_service.py` lines 412–457).

Finds the row by id (error if absent), rejects an unrecognized action;
`protect` sets status `protected`, stamps `moderated_at`, and — when
the lockout is non-null and still in the future — recomputes
`lockout_ends_at := now + (price - $1) hours` (price unchanged), then
deletes every Report row of the item; `approve`/`reject` only set the
status and stamp `moderated_at`. -/
def moderate_message (db : DB) (word_id : Nat) (action : String)
    (now : Int) : Except SvcError Word × DB :=
  match db.findById word_id with
  | none => (.error .notFound, db)
  | some word =>
    if action ≠ "approve" ∧ action ≠ "reject" ∧ action ≠ "protect" then
      (.error .invalidAction, db)
    else if action == "protect" then
      let word1 : Word :=
        { word with
          moderation_status := some .protectedStatus, moderated_at := some now }
      let word2 : Word :=
        match word.lockout_ends_at with
        | some t =>
          if now < t then
            { word1 with lockout_ends_at := some (now + (word.price - 100) * 36) }
          else word1
        | none => word1
      (.ok word2,
        { (db.updateWord word_id word2) with
            reports := db.reports.filter (fun r => !(r.word_id == word_id)) })
    else
      let word1 : Word :=
        { word with
          moderation_status :=
            some (if action == "approve" then .approved else .rejected),
          moderated_at := some now }
      (.ok word1, db.updateWord word_id word1)

/-- The six aggregates of `AdminService.get_income_stats`
(`admin_service.py` lines 70–146). -/
structure IncomeStats where
  total_income : Int
  today_income : Int
  week_income : Int
  total_transactions : Nat
  today_transactions : Nat
  week_transactions : Nat
  deriving DecidableEq, Repr

/-- `SUM(price_paid)` over a list of transactions (`COALESCE`d to 0 on
the empty set, as the Python `if total_result else 0.0` does). -/
def sumPaid (ts : List Txn) : Int :=
  (ts.map Txn.price_paid).sum

/-- `AdminService.get_income_stats`: every aggregate filters
`Transaction.is_admin_action == False`, the today/week ones adding a
`timestamp >=` bound. -/
def get_income_stats (db : DB) (today_start week_start : Int) : IncomeStats :=
  { total_income :=
      sumPaid (db.transactions.filter (fun t => !t.is_admin_action)),
    today_income :=
      sumPaid (db.transactions.filter
        (fun t => !t.is_admin_action && today_start ≤ t.timestamp)),
    week_income :=
      sumPaid (db.transactions.filter
        (fun t => !t.is_admin_action && week_start ≤ t.timestamp)),
    total_transactions :=
      (db.transactions.filter (fun t => !t.is_admin_action)).length,
    today_transactions :=
      (db.transactions.filter
        (fun t => !t.is_admin_action && today_start ≤ t.timestamp)).length,
    week_transactions :=
      (db.transactions.filter
        (fun t => !t.is_admin_action && week_start ≤ t.timestamp)).length }

/-- A concrete unowned registry row used to evaluate the theorems on
closed inputs ($5.00, no owner, no lockout, unset status). -/
def wordHello : Word :=
  { id := 1, text := "hello", price := 500, owner_name := none,
    owner_message := none, lockout_ends_at := none,
    moderation_status := none, moderated_at := none }

/-- A one-word store holding `wordHello`. -/
def dbHello : DB :=
  { words := [wordHello], transactions := [], reports := [] }

/-- The empty store. -/
def dbEmpty : DB :=
  { words := [], transactions := [], reports := [] }

/-- A concrete owned row with a message and a live lockout, unset
moderation status. -/
def wordOwned : Word :=
  { id := 2, text := "mild", price := 700, owner_name := some "bob",
    owner_message := some "mine", lockout_ends_at := some 5000,
    moderation_status := none, moderated_at := none }

/-- A one-word store holding `wordOwned`. -/
def dbOwned : DB :=
  { words := [wordOwned], transactions := [], reports := [] }

/-- `dbOwned` with two existing reports against `wordOwned`. -/
def dbReported : DB :=
  { words := [wordOwned], transactions := [],
    reports := [{ word_id := 2, ip_address := none },
                { word_id := 2, ip_address := some "ip" }] }

/-- `wordOwned` already adjudicated as approved. -/
def wordApproved : Word :=
  { wordOwned with moderation_status := some ModStatus.approved }

/-- A one-word store holding `wordApproved`. -/
def dbApproved : DB :=
  { words := [wordApproved], transactions := [], reports := [] }

/-- `k` successive report submissions against the same item: the store
after calling `report_message` `k` times. -/
def report_calls (db : DB) (word_id : Nat) (ip : Option String)
    (threshold : Nat) : Nat → DB
  | 0 => db
  | Nat.succ k =>
    (report_message (report_calls db word_id ip threshold k)
      word_id ip threshold).1

/-- **C1.** `filter_message_for_moderation` passes the message through
when status is approved or protected (any report count), or when status
is unset and the count is below threshold; it suppresses the message
when status is pending or rejected (any report count), or when status is
unset and the count has reached the threshold. -/
theorem filter_message_spec (message : Option String)
    (status : Option ModStatus) (report_count threshold : Nat) :
    ((status = some .approved ∨ status = some .protectedStatus) →
      filter_message_for_moderation message status report_count threshold
        = message) ∧
    ((status = none ∧ report_count < threshold) →
      filter_message_for_moderation message status report_count threshold
        = message) ∧
    ((status = some .pending ∨ status = some .rejected) →
      filter_message_for_moderation message status report_count threshold
        = none) ∧
    ((status = none ∧ threshold ≤ report_count) →
      filter_message_for_moderation message status report_count threshold
        = none) := by
  refine ⟨?_, ?_, ?_, ?_⟩
  · rintro (rfl | rfl) <;> rfl
  · rintro ⟨rfl, hlt⟩
    simp [filter_message_for_moderation, hlt]
  · rintro (rfl | rfl) <;> rfl
  · rintro ⟨rfl, hge⟩
    simp [filter_message_for_moderation, Nat.not_lt.mpr hge]

/-- Witness for C1: evaluates the filter on concrete inputs through the
theorem. -/
theorem filter_message_spec_witness :
    filter_message_for_moderation (some "hi") (some .approved) 99 3 = some "hi" ∧
    filter_message_for_moderation (some "hi") none 2 3 = some "hi" ∧
    filter_message_for_moderation (some "hi") (some .rejected) 0 3 = none ∧
    filter_message_for_moderation (some "hi") none 3 3 = none := by
  refine ⟨?_, ?_, ?_, ?_⟩
  · exact (filter_message_spec (some "hi") (some .approved) 99 3).1 (Or.inl rfl)
  · exact (filter_message_spec (some "hi") none 2 3).2.1 ⟨rfl, by decide⟩
  · exact (filter_message_spec (some "hi") (some .rejected) 0 3).2.2.1 (Or.inr rfl)
  · exact (filter_message_spec (some "hi") none 3 3).2.2.2 ⟨rfl, by decide⟩

/-- **C3 (counterexample).** The dashboard's `available_words` count
(`get_dashboard_summary`, strict `lockout_ends_at < now`) disagrees with
`is_word_available` when the lockout expires exactly at `now`: at
`lockout_ends_at = some 0, now = 0` the dashboard counts the word as
unavailable while `is_word_available` is true. -/
theorem dashboard_diverges_from_is_available :
    dashboard_available_filter (some 0) 0 = false ∧
    is_word_available (some 0) 0 = true := by
  constructor <;> decide

/-- **C3 (amended).** The search filter, the random-word filter and the
platform-stats complement all compute exactly `is_word_available`; the
dashboard's `available_words` filter instead uses strict `<` and
coincides with `is_word_available` except precisely when
`lockout_ends_at` equals `now`, where it reports unavailable. -/
theorem availability_consumers (lockout_ends_at : Option Int) (now : Int) :
    search_available_filter lockout_ends_at now
      = is_word_available lockout_ends_at now ∧
    random_available_filter lockout_ends_at now
      = is_word_available lockout_ends_at now ∧
    (!stats_locked_filter lockout_ends_at now)
      = is_word_available lockout_ends_at now ∧
    dashboard_available_filter lockout_ends_at now
      = (is_word_available lockout_ends_at now
          && !(lockout_ends_at == some now)) := by
  refine ⟨rfl, rfl, ?_, ?_⟩
  · cases lockout_ends_at with
    | none => rfl
    | some t =>
      rcases lt_or_le now t with h1 | h1
      · simp [stats_locked_filter, is_word_available, h1, not_le.mpr h1]
      · simp [stats_locked_filter, is_word_available, h1, not_lt.mpr h1]
  · cases lockout_ends_at with
    | none => rfl
    | some t =>
      by_cases h1 : t < now <;> by_cases h2 : t = now <;>
        simp [dashboard_available_filter, is_word_available, h1, h2] <;> omega

/-- **C2.** A successful claim of an existing, available item of
pre-increment price `P` (in cents) returns and commits the item with
`price = P + $1`, both owner fields set to the buyer's values,
`lockout_ends_at = now + P hours` (36 s per cent of `P`), and appends
exactly one Transaction with `price_paid = P` and
`is_admin_action = false`. -/
theorem steal_word_success (db : DB)
    (word_text owner_name owner_message : String) (now : Int) (word : Word)
    (hfind : db.findByText (pyLower word_text) = some word)
    (havail : is_word_available word.lockout_ends_at now = true) :
    steal_word db word_text owner_name owner_message now true =
      (Except.ok
        ({ word with
           owner_name := some owner_name,
           owner_message := some owner_message,
           price := word.price + 100,
           lockout_ends_at := some (now + word.price * 36) },
         { word_id := word.id, buyer_name := owner_name,
           price_paid := word.price, timestamp := now,
           is_admin_action := false }),
        { (db.updateWord word.id
            { word with
              owner_name := some owner_name,
              owner_message := some owner_message,
              price := word.price + 100,
              lockout_ends_at := some (now + word.price * 36) }) with
            transactions := db.transactions ++
              [{ word_id := word.id, buyer_name := owner_name,
                 price_paid := word.price, timestamp := now,
                 is_admin_action := false }] }) := by
  simp [steal_word, hfind, havail]

/-- Witness for C2: claiming the $5.00 word `hello` at `now = 0`
commits price $6.00, lockout 18000 s (= 5 h), and a single $5.00
non-admin transaction. -/
theorem steal_word_success_witness :
    steal_word dbHello "HELLO" "alice" "hi there" 0 true =
      (Except.ok
        ({ wordHello with
           owner_name := some "alice",
           owner_message := some "hi there",
           price := 600,
           lockout_ends_at := some 18000 },
         { word_id := 1, buyer_name := "alice", price_paid := 500,
           timestamp := 0, is_admin_action := false }),
        { words := [{ wordHello with
            owner_name := some "alice",
            owner_message := some "hi there",
            price := 600,
            lockout_ends_at := some 18000 }],
          transactions := [{ word_id := 1, buyer_name := "alice",
                             price_paid := 500, timestamp := 0,
                             is_admin_action := false }],
          reports := [] }) := by
  have h := steal_word_success dbHello "HELLO" "alice" "hi there" 0 wordHello
    (by decide) (by decide)
  rw [h]
  rfl

/-- **C7.** Every failing claim attempt — unknown word, unexpired
lockout, or a storage failure at commit — leaves the committed store
exactly as it was: no price, owner or lockout change and no Transaction
row is ever observable from the attempt. -/
theorem steal_word_failure_atomic (db : DB)
    (word_text owner_name owner_message : String) (now : Int)
    (commitOk : Bool) (e : SvcError)
    (herr : (steal_word db word_text owner_name owner_message now commitOk).1
      = .error e) :
    (steal_word db word_text owner_name owner_message now commitOk).2 = db := by
  unfold steal_word at herr ⊢
  cases hf : db.findByText (pyLower word_text) with
  | none => simp [hf]
  | some w =>
    simp only [hf] at herr ⊢
    by_cases ha : is_word_available w.lockout_ends_at now
    · cases commitOk <;> simp_all
    · simp [ha]

/-- Witness for C7: a claim against the empty store fails with
`notFound` and leaves the store untouched. -/
theorem steal_word_failure_atomic_witness :
    (steal_word dbEmpty "hello" "alice" "hi" 0 true).2 = dbEmpty :=
  steal_word_failure_atomic dbEmpty "hello" "alice" "hi" 0 true .notFound rfl

/-- Explicit success equation for `add_word`: when the normalized text
is fresh, 1–100 ASCII letters, and the oracle does not block, the mint
commits the new $51.00 row with its 50-hour lockout and the single
$50.00 non-admin transaction. -/
theorem add_word_ok_eq (db : DB) (word_text owner_name owner_message : String)
    (now : Int) (toxicBlocks : String → Bool)
    (hex : db.words.any (fun x => x.text == pyStrip (pyLower word_text)) = false)
    (halpha : pyIsAlpha (pyStrip (pyLower word_text)) = true)
    (hascii : pyIsAscii (pyStrip (pyLower word_text)) = true)
    (hlen : pyLen (pyStrip (pyLower word_text)) ≤ 100)
    (htox : toxicBlocks (pyStrip (pyLower word_text)) = false) :
    add_word db word_text owner_name owner_message now toxicBlocks true =
      (Except.ok
        ({ id := db.freshId, text := pyStrip (pyLower word_text), price := 5100,
           owner_name := some owner_name, owner_message := some owner_message,
           lockout_ends_at := some (now + 180000),
           moderation_status := none, moderated_at := none },
         { word_id := db.freshId, buyer_name := owner_name, price_paid := 5000,
           timestamp := now, is_admin_action := false }),
        { words := db.words ++
            [{ id := db.freshId, text := pyStrip (pyLower word_text), price := 5100,
               owner_name := some owner_name, owner_message := some owner_message,
               lockout_ends_at := some (now + 180000),
               moderation_status := none, moderated_at := none }],
          transactions := db.transactions ++
            [{ word_id := db.freshId, buyer_name := owner_name, price_paid := 5000,
               timestamp := now, is_admin_action := false }],
          reports := db.reports }) := by
  have hne : (pyStrip (pyLower word_text)).data.isEmpty = false := by
    revert halpha
    unfold pyIsAlpha
    cases (pyStrip (pyLower word_text)).data.isEmpty <;> simp
  have hlen' : decide (100 < pyLen (pyStrip (pyLower word_text))) = false :=
    decide_eq_false (Nat.not_lt.mpr hlen)
  simp [add_word, hex, hne, hlen', halpha, hascii, htox, insert_word]

/-- **C4.** (i) Minting a text whose normalization is already registered
fails with Conflict, leaving the store unchanged; (ii) minting a fresh
normalized text of 1–100 ASCII letters (oracle passing) creates the item
at price $51 with both owner fields, a 50-hour lockout, and one
Transaction with `price_paid = $50`, `is_admin_action = false`;
(iii) the store-level insert itself rejects any row whose text already
exists (`unique=True` on `Word.text`), which is what settles the
check/insert race. -/
theorem add_word_spec :
    (∀ (db : DB) (word_text owner_name owner_message : String) (now : Int)
       (toxicBlocks : String → Bool) (commitOk : Bool),
       db.words.any (fun x => x.text == pyStrip (pyLower word_text)) = true →
       add_word db word_text owner_name owner_message now toxicBlocks commitOk
         = (.error .conflict, db)) ∧
    (∀ (db : DB) (word_text owner_name owner_message : String) (now : Int)
       (toxicBlocks : String → Bool),
       db.words.any (fun x => x.text == pyStrip (pyLower word_text)) = false →
       pyIsAlpha (pyStrip (pyLower word_text)) = true →
       pyIsAscii (pyStrip (pyLower word_text)) = true →
       pyLen (pyStrip (pyLower word_text)) ≤ 100 →
       toxicBlocks (pyStrip (pyLower word_text)) = false →
       add_word db word_text owner_name owner_message now toxicBlocks true =
         (Except.ok
           ({ id := db.freshId, text := pyStrip (pyLower word_text), price := 5100,
              owner_name := some owner_name, owner_message := some owner_message,
              lockout_ends_at := some (now + 180000),
              moderation_status := none, moderated_at := none },
            { word_id := db.freshId, buyer_name := owner_name, price_paid := 5000,
              timestamp := now, is_admin_action := false }),
           { words := db.words ++
               [{ id := db.freshId, text := pyStrip (pyLower word_text), price := 5100,
                  owner_name := some owner_name, owner_message := some owner_message,
                  lockout_ends_at := some (now + 180000),
                  moderation_status := none, moderated_at := none }],
             transactions := db.transactions ++
               [{ word_id := db.freshId, buyer_name := owner_name, price_paid := 5000,
                  timestamp := now, is_admin_action := false }],
             reports := db.reports })) ∧
    (∀ (db : DB) (w : Word),
       db.words.any (fun x => x.text == w.text) = true →
       insert_word db w = none) := by
  refine ⟨?_, ?_, ?_⟩
  · intro db word_text owner_name owner_message now toxicBlocks commitOk hdup
    simp [add_word, hdup]
  · intro db word_text owner_name owner_message now toxicBlocks hex halpha hascii hlen htox
    exact add_word_ok_eq db word_text owner_name owner_message now toxicBlocks
      hex halpha hascii hlen htox
  · intro db w hdup
    simp [insert_word, hdup]

/-- Witness for C4: re-minting `hello` conflicts; minting `"  HeLLo "`
on the empty registry stores `hello` at $51.00 with a 180000 s
(50-hour) lockout; the unique constraint rejects a duplicate row. -/
theorem add_word_spec_witness :
    add_word dbHello "HELLO" "eve" "msg" 0 (fun _ => false) true
      = (.error .conflict, dbHello) ∧
    (add_word dbEmpty "  HeLLo " "eve" "msg" 0 (fun _ => false) true).2.words
      = [{ id := 1, text := "hello", price := 5100, owner_name := some "eve",
           owner_message := some "msg", lockout_ends_at := some 180000,
           moderation_status := none, moderated_at := none }] ∧
    insert_word dbHello { wordHello with id := 9 } = none := by
  refine ⟨?_, ?_, ?_⟩
  · exact add_word_spec.1 dbHello "HELLO" "eve" "msg" 0 (fun _ => false) true
      (by decide)
  · rw [add_word_spec.2.1 dbEmpty "  HeLLo " "eve" "msg" 0 (fun _ => false)
      (by decide) (by decide) (by decide) (by decide) (by decide)]
    decide
  · exact add_word_spec.2.2 dbHello _ (by decide)

/-- **C10.** Mint normalizes with `lower().strip()` while claim looks up
only `lower()`: for a raw text whose lowercasing still carries
surrounding whitespace, minting succeeds and stores the stripped text,
and a claim of the same raw string against the resulting store fails
with NotFound. -/
theorem mint_strips_claim_does_not (db : DB)
    (raw owner_name owner_message : String) (now : Int)
    (toxicBlocks : String → Bool)
    (hws : pyLower raw ≠ pyStrip (pyLower raw))
    (hrawabs : db.findByText (pyLower raw) = none)
    (hex : db.words.any (fun x => x.text == pyStrip (pyLower raw)) = false)
    (halpha : pyIsAlpha (pyStrip (pyLower raw)) = true)
    (hascii : pyIsAscii (pyStrip (pyLower raw)) = true)
    (hlen : pyLen (pyStrip (pyLower raw)) ≤ 100)
    (htox : toxicBlocks (pyStrip (pyLower raw)) = false) :
    (∃ w t, add_word db raw owner_name owner_message now toxicBlocks true
        = (Except.ok (w, t),
           { words := db.words ++ [w],
             transactions := db.transactions ++ [t],
             reports := db.reports })
      ∧ w.text = pyStrip (pyLower raw)) ∧
    steal_word (add_word db raw owner_name owner_message now toxicBlocks true).2
        raw owner_name owner_message now true
      = (.error .notFound,
         (add_word db raw owner_name owner_message now toxicBlocks true).2) := by
  have hok := add_word_ok_eq db raw owner_name owner_message now toxicBlocks
    hex halpha hascii hlen htox
  have hne : ((pyStrip (pyLower raw) : String) == pyLower raw) = false :=
    beq_eq_false_iff_ne.mpr (Ne.symm hws)
  have hraw' : db.words.find? (fun x => x.text == pyLower raw) = none := hrawabs
  constructor
  · exact ⟨_, _, hok, rfl⟩
  · rw [hok]
    simp [steal_word, DB.findByText, List.find?_append, hraw', hne]

/-- Witness for C10: on the empty registry, minting `"  HeLLo "` then
claiming the same raw string fails with NotFound. -/
theorem mint_strips_claim_does_not_witness :
    steal_word (add_word dbEmpty "  HeLLo " "eve" "msg" 0 (fun _ => false) true).2
        "  HeLLo " "eve" "msg" 0 true
      = (.error .notFound,
         (add_word dbEmpty "  HeLLo " "eve" "msg" 0 (fun _ => false) true).2) :=
  (mint_strips_claim_does_not dbEmpty "  HeLLo " "eve" "msg" 0 (fun _ => false)
    (by decide) (by decide) (by decide) (by decide) (by decide) (by decide)
    (by decide)).2

/-- **C8.** An administrative reset of an existing item appends exactly
one Transaction with `is_admin_action = true` and `price_paid` equal to
the new price, and every aggregate of `get_income_stats` (total, today
and week income and the three transaction counts) is unaffected by any
admin-flagged transaction. -/
theorem admin_reset_excluded_from_income (db : DB) (word_text : String)
    (new_price : Int) (owner_name owner_message : Option String) (now : Int)
    (word : Word)
    (hfind : db.findByText (pyLower word_text) = some word) :
    (reset_word db word_text new_price owner_name owner_message now).2.transactions
      = db.transactions ++
        [{ word_id := word.id, buyer_name := pyOr owner_name "ADMIN_RESET",
           price_paid := new_price, timestamp := now,
           is_admin_action := true }] ∧
    (∀ (db' : DB) (t : Txn) (today_start week_start : Int),
       t.is_admin_action = true →
       get_income_stats
           { db' with transactions := db'.transactions ++ [t] }
           today_start week_start
         = get_income_stats db' today_start week_start) := by
  constructor
  · simp [reset_word, hfind]
  · intro db' t today_start week_start ht
    simp [get_income_stats, List.filter_append, ht, sumPaid]

/-- Witness for C8: resetting `hello` to $9.00 appends the single
admin-flagged $9.00 transaction, and income stats ignore such a
transaction. -/
theorem admin_reset_excluded_from_income_witness :
    (reset_word dbHello "hello" 900 (some "X") (some "m") 0).2.transactions
      = [{ word_id := 1, buyer_name := "X", price_paid := 900,
           timestamp := 0, is_admin_action := true }] ∧
    get_income_stats
        { dbEmpty with
          transactions := [{ word_id := 1, buyer_name := "X",
                             price_paid := 900, timestamp := 0,
                             is_admin_action := true }] } 0 0
      = get_income_stats dbEmpty 0 0 := by
  have h := admin_reset_excluded_from_income dbHello "hello" 900 (some "X")
    (some "m") 0 wordHello (by decide)
  constructor
  · rw [h.1]
    rfl
  · exact h.2 dbEmpty
      { word_id := 1, buyer_name := "X", price_paid := 900, timestamp := 0,
        is_admin_action := true } 0 0 rfl

/-- **C9 (counterexample).** The claim asserts the owner-fields pairing
holds in particular after an administrative reset that supplies an owner
name but no message; in fact `reset_word` then stores `owner_name` set
and `owner_message` null: resetting the unowned `hello` to $5.00 with
owner `X` and no message commits exactly that unpaired state. -/
theorem reset_breaks_owner_pairing :
    (reset_word dbHello "hello" 500 (some "X") none 0).1
      = Except.ok { id := 1, text := "hello", price := 500,
                    owner_name := some "X", owner_message := none,
                    lockout_ends_at := some 18000,
                    moderation_status := none, moderated_at := none } := by
  rfl

/-- **C9 (amended).** After a successful claim or mint both owner fields
are set to the buyer's values together with a non-null lockout, and
adjudication never touches the owner fields; but an administrative
reset that supplies an owner name without a message commits
`owner_name` set with `owner_message` null, breaking the pairing. -/
theorem owner_pairing_after_operations :
    (∀ (db : DB) (word_text owner_name owner_message : String) (now : Int)
       (commitOk : Bool) (w : Word) (t : Txn),
       (steal_word db word_text owner_name owner_message now commitOk).1
         = .ok (w, t) →
       w.owner_name = some owner_name ∧ w.owner_message = some owner_message ∧
       w.lockout_ends_at ≠ none) ∧
    (∀ (db : DB) (word_text owner_name owner_message : String) (now : Int)
       (toxicBlocks : String → Bool) (commitOk : Bool) (w : Word) (t : Txn),
       (add_word db word_text owner_name owner_message now toxicBlocks
           commitOk).1 = .ok (w, t) →
       w.owner_name = some owner_name ∧ w.owner_message = some owner_message ∧
       w.lockout_ends_at ≠ none) ∧
    (∀ (db : DB) (word_id : Nat) (action : String) (now : Int)
       (orig w : Word),
       db.findById word_id = some orig →
       (moderate_message db word_id action now).1 = .ok w →
       w.owner_name = orig.owner_name ∧ w.owner_message = orig.owner_message) ∧
    (∀ (db : DB) (word_text : String) (new_price : Int) (name : String)
       (now : Int) (w : Word),
       (reset_word db word_text new_price (some name) none now).1 = .ok w →
       w.owner_name = some name ∧ w.owner_message = none) := by
  refine ⟨?_, ?_, ?_, ?_⟩
  · intro db word_text owner_name owner_message now commitOk w t h
    unfold steal_word at h
    cases hf : db.findByText (pyLower word_text) with
    | none => simp [hf] at h
    | some word =>
      simp only [hf] at h
      by_cases ha : is_word_available word.lockout_ends_at now = true
      · cases commitOk with
        | false => simp [ha] at h
        | true =>
          simp [ha] at h
          obtain ⟨hw, -⟩ := h
          subst hw
          exact ⟨rfl, rfl, by simp⟩
      · simp [ha] at h
  · intro db word_text owner_name owner_message now toxicBlocks commitOk w t h
    unfold add_word at h
    by_cases c1 : db.words.any
        (fun x => x.text == pyStrip (pyLower word_text)) = true
    · simp [c1] at h
    · by_cases c2 : ((pyStrip (pyLower word_text)).data.isEmpty
          || decide (100 < pyLen (pyStrip (pyLower word_text)))) = true
      · simp [c1, c2] at h
      · by_cases c3 : pyIsAlpha (pyStrip (pyLower word_text)) = true
        · by_cases c4 : pyIsAscii (pyStrip (pyLower word_text)) = true
          · by_cases c5 : toxicBlocks (pyStrip (pyLower word_text)) = true
            · simp [c1, c2, c3, c4, c5] at h
            · cases hi : insert_word db
                  { id := db.freshId, text := pyStrip (pyLower word_text),
                    price := 5100, owner_name := some owner_name,
                    owner_message := some owner_message,
                    lockout_ends_at := some (now + 180000),
                    moderation_status := none, moderated_at := none } with
              | none => simp [c1, c2, c3, c4, c5, hi] at h
              | some db2 =>
                cases commitOk with
                | false => simp [c1, c2, c3, c4, c5, hi] at h
                | true =>
                  simp [c1, c2, c3, c4, c5, hi] at h
                  obtain ⟨hw, -⟩ := h
                  subst hw
                  exact ⟨rfl, rfl, by simp⟩
          · simp [c1, c2, c3, c4] at h
        · simp [c1, c2, c3] at h
  · intro db word_id action now orig w hfind h
    unfold moderate_message at h
    simp only [hfind] at h
    by_cases c1 : (action ≠ "approve" ∧ action ≠ "reject" ∧ action ≠ "protect")
    · simp [c1] at h
    · by_cases c2 : action = "protect"
      · simp only [c1, if_neg, c2, if_pos, if_true, reduceIte] at h
        simp [c2] at h
        cases hl : orig.lockout_ends_at with
        | none =>
          simp [hl] at h
          subst h
          exact ⟨rfl, rfl⟩
        | some tt =>
          simp only [hl] at h
          by_cases c3 : now < tt
          · simp [c3] at h
            subst h
            exact ⟨rfl, rfl⟩
          · simp [c3] at h
            subst h
            exact ⟨rfl, rfl⟩
      · have c4 : ¬(¬action = "approve" ∧ ¬action = "reject") := by
          intro hc
          exact c1 ⟨hc.1, hc.2, c2⟩
        simp [c2, c4] at h
        subst h
        exact ⟨rfl, rfl⟩
  · intro db word_text new_price name now w h
    unfold reset_word at h
    cases hf : db.findByText (pyLower word_text) with
    | none => simp [hf] at h
    | some word =>
      simp only [hf] at h
      simp at h
      subst h
      exact ⟨rfl, rfl⟩

/-- Witness for C9: the claim branch evaluated on the concrete one-word
store, and the reset branch on the same store with a name and no
message. -/
theorem owner_pairing_after_operations_witness :
    ((some "alice" : Option String) = some "alice" ∧
     (some "hi" : Option String) = some "hi" ∧
     (some (18000 : Int) : Option Int) ≠ none) ∧
    ((some "X" : Option String) = some "X" ∧
     (none : Option String) = none) := by
  constructor
  · exact owner_pairing_after_operations.1 dbHello "hello" "alice" "hi" 0 true
      { wordHello with
        owner_name := some "alice", owner_message := some "hi",
        price := 600, lockout_ends_at := some 18000 }
      { word_id := 1, buyer_name := "alice", price_paid := 500,
        timestamp := 0, is_admin_action := false } rfl
  · exact owner_pairing_after_operations.2.2.2 dbHello "hello" 500 "X" 0
      { wordHello with
        owner_name := some "X", owner_message := none,
        price := 500, lockout_ends_at := some 18000 } rfl

/-- Deleting every list element satisfying `p` leaves nothing for a
subsequent `p`-filter to find. -/
theorem filter_of_filter_not {α : Type} (p : α → Bool) (l : List α) :
    (l.filter (fun a => !(p a))).filter p = [] := by
  induction l with
  | nil => rfl
  | cons a l ih =>
    cases hp : p a <;> simp [List.filter_cons, hp, ih]

/-- The count `report_message` returns is the recomputed report count
after its own insert, on every branch. -/
theorem report_message_snd (db : DB) (word_id : Nat) (ip : Option String)
    (θ : Nat) :
    (report_message db word_id ip θ).2
      = report_count_for
          { db with
            reports := db.reports ++ [{ word_id := word_id, ip_address := ip }] }
          word_id := by
  unfold report_message
  cases hf : DB.findById
      { db with
        reports := db.reports ++ [{ word_id := word_id, ip_address := ip }] }
      word_id with
  | none => simp [hf]
  | some w =>
    simp only [hf]
    split <;> rfl

/-- **C6.** Adjudicating an existing item with `protect` sets the
status to protected, stamps `moderated_at := now`, keeps the price,
recomputes `lockout_ends_at := now + (price - $1) hours` exactly when
the current lockout is non-null and in the future (otherwise leaves it
alone), and deletes every Report row of the item, so the recomputed
count is zero and a subsequent report counts from one. -/
theorem moderate_protect_spec (db : DB) (word_id : Nat) (now : Int)
    (word : Word) (hfind : db.findById word_id = some word) :
    (∃ w2, (moderate_message db word_id "protect" now).1 = .ok w2
       ∧ w2.moderation_status = some .protectedStatus
       ∧ w2.moderated_at = some now
       ∧ w2.price = word.price
       ∧ ((∃ t, word.lockout_ends_at = some t ∧ now < t) →
           w2.lockout_ends_at = some (now + (word.price - 100) * 36))
       ∧ ((¬ ∃ t, word.lockout_ends_at = some t ∧ now < t) →
           w2.lockout_ends_at = word.lockout_ends_at)
       ∧ (moderate_message db word_id "protect" now).2
           = { (db.updateWord word_id w2) with
               reports := db.reports.filter (fun r => !(r.word_id == word_id)) }) ∧
    report_count_for (moderate_message db word_id "protect" now).2 word_id = 0 ∧
    (∀ (ip : Option String) (θ : Nat),
       (report_message (moderate_message db word_id "protect" now).2
         word_id ip θ).2 = 1) := by
  have hrep : (moderate_message db word_id "protect" now).2.reports
      = db.reports.filter (fun r => !(r.word_id == word_id)) := by
    unfold moderate_message
    simp [hfind]
  have hcnt0 : report_count_for (moderate_message db word_id "protect" now).2
      word_id = 0 := by
    unfold report_count_for
    rw [hrep, filter_of_filter_not]
    rfl
  refine ⟨?_, hcnt0, ?_⟩
  · unfold moderate_message
    simp only [hfind]
    cases hl : word.lockout_ends_at with
    | none =>
      refine ⟨{ word with
                moderation_status := some .protectedStatus,
                moderated_at := some now },
        by simp [hl], rfl, rfl, rfl, ?_, fun _ => hl, by simp [hl]⟩
      rintro ⟨t, ht, -⟩
      exact absurd ht (by simp)
    | some tt =>
      by_cases hfut : now < tt
      · refine ⟨{ word with
                  lockout_ends_at := some (now + (word.price - 100) * 36),
                  moderation_status := some .protectedStatus,
                  moderated_at := some now },
          by simp [hl, hfut], rfl, rfl, rfl, fun _ => rfl, ?_,
          by simp [hl, hfut]⟩
        intro h
        exact absurd ⟨tt, rfl, hfut⟩ h
      · refine ⟨{ word with
                  lockout_ends_at := some tt,
                  moderation_status := some .protectedStatus,
                  moderated_at := some now },
          by simp [hl, hfut], rfl, rfl, rfl, ?_, fun _ => rfl,
          by simp [hl, hfut]⟩
        rintro ⟨t, ht, hlt⟩
        injection ht with ht
        subst ht
        exact absurd hlt hfut
  · intro ip θ
    rw [report_message_snd]
    unfold report_count_for
    simp only [List.filter_append, hrep, filter_of_filter_not]
    simp

/-- Witness for C6: protecting the reported, locked `mild` clears both
reports and a following report counts 1. -/
theorem moderate_protect_spec_witness :
    report_count_for (moderate_message dbReported 2 "protect" 0).2 2 = 0 ∧
    (report_message (moderate_message dbReported 2 "protect" 0).2 2 none 3).2
      = 1 := by
  have h := moderate_protect_spec dbReported 2 0 wordOwned rfl
  exact ⟨h.2.1, h.2.2 none 3⟩

/-- Replacing the matched row of a successful primary-key lookup makes
the lookup return the replacement. -/
theorem find?_update (l : List Word) (id : Nat) (w w2 : Word)
    (hw2 : w2.id = id)
    (h : l.find? (fun x => x.id == id) = some w) :
    (l.map (fun x => if x.id = id then w2 else x)).find? (fun x => x.id == id)
      = some w2 := by
  induction l with
  | nil => simp at h
  | cons a l ih =>
    by_cases ha : a.id = id
    · simp [List.find?_cons, ha, hw2]
    · rw [List.find?_cons_of_neg] at h
      · simp only [List.map_cons, if_neg ha]
        rw [List.find?_cons_of_neg]
        · exact ih h
        · simp [ha]
      · simp [ha]

/-- Appending one report for the item raises its recomputed count by
one. -/
theorem report_count_step (db : DB) (word_id : Nat) (ip : Option String) :
    report_count_for
        { db with
          reports := db.reports ++ [{ word_id := word_id, ip_address := ip }] }
        word_id
      = report_count_for db word_id + 1 := by
  simp [report_count_for, List.filter_append]

/-- One `report_message` call, written out: the report row is appended,
the count becomes one more, and the item escalates to pending exactly
when that count reaches the threshold while the status is unset. -/
theorem report_message_step (db : DB) (word_id : Nat) (ip : Option String)
    (θ : Nat) (word : Word)
    (hfind : db.findById word_id = some word) :
    report_message db word_id ip θ =
      (if θ ≤ report_count_for db word_id + 1 ∧ word.moderation_status = none
       then
         (DB.updateWord
           { db with
             reports := db.reports ++ [{ word_id := word_id, ip_address := ip }] }
           word_id { word with moderation_status := some .pending },
          report_count_for db word_id + 1)
       else
         ({ db with
            reports := db.reports ++ [{ word_id := word_id, ip_address := ip }] },
          report_count_for db word_id + 1)) := by
  have hfind1 : (DB.findById
      { db with
        reports := db.reports ++ [{ word_id := word_id, ip_address := ip }] }
      word_id) = some word := hfind
  unfold report_message
  simp only [hfind1, report_count_step]

/-- Below the threshold the item row is untouched and the count tracks
the number of calls. -/
theorem report_calls_below (db : DB) (word_id : Nat) (ip : Option String)
    (θ : Nat) (word : Word)
    (hfind : db.findById word_id = some word)
    (hcnt : report_count_for db word_id = 0) :
    ∀ k, k < θ →
      (report_calls db word_id ip θ k).findById word_id = some word ∧
      report_count_for (report_calls db word_id ip θ k) word_id = k := by
  intro k
  induction k with
  | zero => intro _; exact ⟨hfind, hcnt⟩
  | succ k ih =>
    intro hk
    obtain ⟨ih1, ih2⟩ := ih (Nat.lt_of_succ_lt hk)
    have hcond : ¬(θ ≤ report_count_for (report_calls db word_id ip θ k) word_id + 1
        ∧ word.moderation_status = none) := by
      rw [ih2]
      rintro ⟨hle, -⟩
      omega
    show ((report_message (report_calls db word_id ip θ k) word_id ip θ).1.findById
        word_id = some word) ∧
      report_count_for
        (report_message (report_calls db word_id ip θ k) word_id ip θ).1
        word_id = k + 1
    rw [report_message_step _ _ _ _ _ ih1, if_neg hcond]
    refine ⟨ih1, ?_⟩
    rw [report_count_step, ih2]

/-- **C5.** Starting from an unset status and zero reports, the first
`threshold - 1` report calls leave the item row unchanged, the call
whose resulting count reaches the threshold sets the status to pending,
and once any status is set a report call never changes the item row
again. -/
theorem report_threshold_escalation (db : DB) (word_id : Nat)
    (ip : Option String) (θ : Nat) (word : Word)
    (hθ : 1 ≤ θ)
    (hfind : db.findById word_id = some word)
    (hunset : word.moderation_status = none)
    (hcnt : report_count_for db word_id = 0) :
    (∀ k, k < θ →
       (report_calls db word_id ip θ k).findById word_id = some word) ∧
    ((report_calls db word_id ip θ θ).findById word_id
       = some { word with moderation_status := some .pending }) ∧
    (∀ (db' : DB) (w' : Word) (s : ModStatus) (ip' : Option String),
       db'.findById word_id = some w' →
       w'.moderation_status = some s →
       (report_message db' word_id ip' θ).1.findById word_id = some w') := by
  refine ⟨fun k hk =>
    (report_calls_below db word_id ip θ word hfind hcnt k hk).1, ?_, ?_⟩
  · obtain ⟨j, rfl⟩ : ∃ j, θ = j + 1 := ⟨θ - 1, by omega⟩
    obtain ⟨h1, h2⟩ := report_calls_below db word_id ip (j + 1) word hfind hcnt
      j (by omega)
    have hid : word.id = word_id := by
      have := List.find?_some h1
      simpa using this
    show (report_message (report_calls db word_id ip (j + 1) j) word_id ip
        (j + 1)).1.findById word_id = _
    rw [report_message_step _ _ _ _ _ h1, if_pos ⟨by simp [h2], hunset⟩]
    exact find?_update _ _ _ _ hid h1
  · intro db' w' s ip' hfind' hstat
    rw [report_message_step _ _ _ _ _ hfind', if_neg (by simp [hstat])]
    exact hfind'

/-- Witness for C5: with threshold 2 on the unreported `mild`, the first
report changes nothing, the second sets pending, and a report against
an already-approved item changes nothing. -/
theorem report_threshold_escalation_witness :
    (report_calls dbOwned 2 none 2 1).findById 2 = some wordOwned ∧
    (report_calls dbOwned 2 none 2 2).findById 2
      = some { wordOwned with moderation_status := some ModStatus.pending } ∧
    (report_message dbApproved 2 none 2).1.findById 2 = some wordApproved := by
  have h := report_threshold_escalation dbOwned 2 none 2 wordOwned (by decide)
    rfl rfl rfl
  exact ⟨h.1 1 (by decide), h.2.1,
    h.2.2 dbApproved wordApproved ModStatus.approved none rfl rfl⟩
